import Mathlib

/-!
Verification of the dehydrated-cloudflare hook (`dehydrated-cloudflare.py`).

The script is a dehydrated ACME hook that manages `_acme-challenge` TXT
records at Cloudflare.  We shallowly embed its pure logic:

* `_iter_domain`          ↦ `iterDomain` (the candidate walk of the zone
  resolver), built on `splitDot`, the embedding of Python's
  `domain.split(".")`;
* the zone-id cache       ↦ `HookState` (an association list standing for
  the Python dict `_zone_id_cache` plus the `_cache_changed` flag), with
  `zoneIdFromCache`, `zoneIdToCache`;
* `_get_zone_id`          ↦ `getZoneId` over a provider oracle
  `zonesGet : String → List String` (list of zone ids answered for a name);
* `_get_txt_record_id`, `_deploy_challenge`, `_clean_challenge`
                          ↦ `getTxtRecordId`, `deployChallenge`,
  `cleanChallenge` over an explicit provider record store and a trace of
  outbound calls (`CallEvent`);
* `_dns_propagated`       ↦ `dnsPropagated`; the deploy wait loop is
  unfolded with fuel by `propagationWaitFrom`;
* `_load_cache`/`_save_cache` ↦ `loadCache`/`saveCache` over an explicit
  `CacheFile` value standing for the JSON file.

Python `time.time()` values, and the `CF_CACHETIME` TTL, are modelled as
`Int` seconds.  Python truthiness of an optional string (`if zone_id:`,
`if record_id:`) is `optStrTruthy`: `None` and the empty string are falsy.
-/

namespace DehydratedCF

/-- Embedding of Python `domain.split(".")` (accumulator holds the current
label's characters in reverse). -/
def splitDotAux : List Char → List Char → List String
  | [], acc => [String.mk acc.reverse]
  | c :: cs, acc =>
    if c = '.' then String.mk acc.reverse :: splitDotAux cs []
    else splitDotAux cs (c :: acc)

/-- Python `domain.split(".")`. -/
def splitDot (s : String) : List String := splitDotAux s.data []

/-- The loop of `_iter_domain`: `dom_idx` counts down from `len(dom)` to 1,
yielding `".".join(dom[dom_idx-1:])` at each step. -/
def iterDomainGen (dom : List String) : Nat → List String
  | 0 => []
  | k + 1 => String.intercalate "." (dom.drop k) :: iterDomainGen dom k

/-- `_iter_domain(domain)` as the list of all values the generator yields. -/
def iterDomain (domain : String) : List String :=
  iterDomainGen (splitDot domain) (splitDot domain).length

/-- The spec's words for the Domain Walker: candidate zone names
`l0.l1...ln`, `l1...ln`, ..., `ln`, successively stripping the leftmost
label until one label remains.  Stated on the label list; used only to be
compared with `iterDomain`, the embedding of the code. -/
def specSuffixWalk : List String → List String
  | [] => []
  | l :: rest => String.intercalate "." (l :: rest) :: specSuffixWalk rest

theorem iterDomainGen_cons (l : String) (rest : List String) (k : Nat) :
    iterDomainGen (l :: rest) (k + 1) =
      iterDomainGen rest k ++ [String.intercalate "." (l :: rest)] := by
  induction k with
  | zero => simp [iterDomainGen]
  | succ k ih =>
    rw [iterDomainGen, ih]
    simp [iterDomainGen, List.drop]

theorem iterDomainGen_eq_reverse_specSuffixWalk (dom : List String) :
    iterDomainGen dom dom.length = (specSuffixWalk dom).reverse := by
  induction dom with
  | nil => simp [iterDomainGen, specSuffixWalk]
  | cons l rest ih =>
    rw [List.length_cons, iterDomainGen_cons, ih, specSuffixWalk]
    simp

theorem specSuffixWalk_length (dom : List String) :
    (specSuffixWalk dom).length = dom.length := by
  induction dom with
  | nil => rfl
  | cons l rest ih => simp [specSuffixWalk, ih]

/-- **C1, counterexample.**  For the two-label domain `"a.b"` the walker
does not yield the spec's order (most-specific first): it yields
`["b", "a.b"]`, not `["a.b", "b"]`. -/
theorem iterDomain_not_most_specific_first :
    iterDomain "a.b" = ["b", "a.b"] ∧
      iterDomain "a.b" ≠ specSuffixWalk (splitDot "a.b") := by
  constructor
  · rfl
  · decide

/-- **C1 (amended).**  For every domain with labels `[l0, ..., ln]` the
walker `_iter_domain` yields exactly `n+1` candidates, but in the order
`ln`, `l(n-1).ln`, ..., `l0.l1...ln`: least-specific first, strictly
increasing label count, ending at the full domain — the exact reverse of
the spec's most-specific-first order. -/
theorem iterDomain_spec (domain : String) :
    iterDomain domain = (specSuffixWalk (splitDot domain)).reverse ∧
      (iterDomain domain).length = (splitDot domain).length := by
  refine ⟨iterDomainGen_eq_reverse_specSuffixWalk (splitDot domain), ?_⟩
  rw [iterDomain, iterDomainGen_eq_reverse_specSuffixWalk (splitDot domain)]
  simp [specSuffixWalk_length]

/-- One value of the dict `_zone_id_cache`: `{"id": zone_id, "created": time.time()}`.
`id` is `none` for a stored negative lookup (`_zone_id_to_cache(dom, None)`). -/
structure CacheEntry where
  id : Option String
  created : Int
deriving DecidableEq, Repr

/-- The dict `_zone_id_cache`, as an association list in insertion order. -/
abbrev Cache := List (String × CacheEntry)

/-- Python `cache[d]` / `d in cache`. -/
def cacheLookup : Cache → String → Option CacheEntry
  | [], _ => none
  | (k, e) :: rest, d => if k = d then some e else cacheLookup rest d

/-- Python `cache[d] = e` (replace in place, or append a new key). -/
def dictSet : Cache → String → CacheEntry → Cache
  | [], d, e => [(d, e)]
  | (k, e0) :: rest, d, e =>
    if k = d then (d, e) :: rest else (k, e0) :: dictSet rest d e

/-- Python `del cache[d]`. -/
def dictErase : Cache → String → Cache
  | [], _ => []
  | (k, e0) :: rest, d => if k = d then rest else (k, e0) :: dictErase rest d

/-- The mutable attributes of `CloudFlareHook`: `_zone_id_cache` and
`_cache_changed`. -/
structure HookState where
  zone_id_cache : Cache
  cache_changed : Bool
deriving DecidableEq, Repr

/-- The state after `__init__`: empty cache, clean flag. -/
def initState : HookState := ⟨[], false⟩

/-- Python truthiness of `zone_id` / `record_id`: `None` and `""` are falsy. -/
def optStrTruthy : Option String → Bool
  | none => false
  | some s => s ≠ ""

/-- `_zone_id_from_cache(domain)`.  `cachetime` is `int(CF_CACHETIME)`,
`now` is `time.time()` at the call.  Returns the value of the Python call
and the state afterwards (the expiry branch deletes the entry;
`_cache_changed` is never touched by this method). -/
def zoneIdFromCache (cachetime now : Int) (st : HookState) (domain : String) :
    Option String × HookState :=
  match cacheLookup st.zone_id_cache domain with
  | some e =>
    if now - e.created ≥ cachetime then
      (none, { st with zone_id_cache := dictErase st.zone_id_cache domain })
    else
      (e.id, st)
  | none => (none, st)

/-- `_zone_id_to_cache(domain, zone_id)`: stores the entry with the current
time, sets `_cache_changed`, and returns `zone_id`. -/
def zoneIdToCache (now : Int) (st : HookState) (domain : String)
    (zone_id : Option String) : Option String × HookState :=
  (zone_id,
    { zone_id_cache := dictSet st.zone_id_cache domain ⟨zone_id, now⟩,
      cache_changed := true })

/-- The parsed JSON cache file `{"account": ..., "zone": ...}`.
`account` is `none` when the key was JSON `null`. -/
structure CacheFile where
  account : Option String
  zone : Cache
deriving DecidableEq, Repr

/-- `_load_cache(fname)`.  `file` is `none` when `os.path.isfile` fails;
`current_email` is `os.environ.get("CF_API_EMAIL")`.  On an account
mismatch the method returns without touching the state; on a match it
installs the file's zone dict and clears `_cache_changed`. -/
def loadCache (current_email : Option String) (file : Option CacheFile)
    (st : HookState) : HookState :=
  match file with
  | none => st
  | some cf =>
    if cf.account ≠ current_email then st
    else { zone_id_cache := cf.zone, cache_changed := false }

/-- `_save_cache(fname)`: a no-op unless `_cache_changed`; otherwise the
file is overwritten with the current account and zone dict.  The result is
the cache file on disk afterwards. -/
def saveCache (current_email : Option String) (file : Option CacheFile)
    (st : HookState) : Option CacheFile :=
  if st.cache_changed then some ⟨current_email, st.zone_id_cache⟩ else file

theorem cacheLookup_dictSet_self (c : Cache) (d : String) (e : CacheEntry) :
    cacheLookup (dictSet c d e) d = some e := by
  induction c with
  | nil => simp [dictSet, cacheLookup]
  | cons p rest ih =>
    obtain ⟨k, e0⟩ := p
    by_cases h : k = d
    · simp [dictSet, cacheLookup, h]
    · simp [dictSet, cacheLookup, h, ih]

/-- A Python dict has no duplicate keys; the association lists we reason
about satisfy this. -/
def keysNodup (c : Cache) : Prop := (c.map Prod.fst).Nodup

instance (c : Cache) : Decidable (keysNodup c) := by
  unfold keysNodup; infer_instance

theorem cacheLookup_eq_none_of_not_mem (c : Cache) (d : String)
    (h : d ∉ c.map Prod.fst) : cacheLookup c d = none := by
  induction c with
  | nil => rfl
  | cons p rest ih =>
    obtain ⟨k, e0⟩ := p
    rw [List.map_cons, List.mem_cons] at h
    push_neg at h
    rw [cacheLookup, if_neg (fun hq => h.1 hq.symm)]
    exact ih h.2

theorem dictSet_keys (c : Cache) (d : String) (e : CacheEntry) :
    (dictSet c d e).map Prod.fst =
      if d ∈ c.map Prod.fst then c.map Prod.fst
      else c.map Prod.fst ++ [d] := by
  induction c with
  | nil => simp [dictSet]
  | cons p rest ih =>
    obtain ⟨k, e0⟩ := p
    by_cases hk : k = d
    · subst hk
      simp [dictSet]
    · rw [dictSet, if_neg hk, List.map_cons, ih, List.map_cons]
      by_cases hd : d ∈ rest.map Prod.fst
      · rw [if_pos hd, if_pos (by simp [hd])]
      · rw [if_neg hd, if_neg (by simp [hd]; exact fun hq => hk hq.symm),
          List.cons_append]

theorem keysNodup_dictSet (c : Cache) (d : String) (e : CacheEntry)
    (h : keysNodup c) : keysNodup (dictSet c d e) := by
  rw [keysNodup, dictSet_keys]
  by_cases hd : d ∈ c.map Prod.fst
  · rw [if_pos hd]; exact h
  · rw [if_neg hd]
    simp only [List.nodup_append, List.nodup_cons, List.nodup_nil,
      List.not_mem_nil, not_false_iff, and_true, List.mem_singleton]
    exact ⟨h, by simpa using hd⟩

theorem cacheLookup_dictErase_self (c : Cache) (d : String)
    (h : keysNodup c) : cacheLookup (dictErase c d) d = none := by
  induction c with
  | nil => rfl
  | cons p rest ih =>
    obtain ⟨k, e0⟩ := p
    rw [keysNodup, List.map_cons, List.nodup_cons] at h
    by_cases hk : k = d
    · rw [dictErase, if_pos hk]
      exact cacheLookup_eq_none_of_not_mem rest d (hk ▸ h.1)
    · rw [dictErase, if_neg hk, cacheLookup, if_neg hk]
      exact ih h.2

/-- **C8.**  Cache round-trip: storing a value `v` (a zone id or the stored
negative `none`) for domain `d` at time `t0` and looking it up at time `t1`
before TTL expiry returns that same value and leaves the entry in place;
looking it up at or after expiry (`t1 - t0 ≥ cachetime`) returns `none` and
evicts the entry. -/
theorem cache_roundtrip (cachetime t0 t1 : Int) (c : Cache) (dirty : Bool)
    (d : String) (v : Option String) (hnd : keysNodup c) :
    (t1 - t0 < cachetime →
      zoneIdFromCache cachetime t1 (zoneIdToCache t0 ⟨c, dirty⟩ d v).2 d =
        (v, (zoneIdToCache t0 ⟨c, dirty⟩ d v).2)) ∧
    (t1 - t0 ≥ cachetime →
      (zoneIdFromCache cachetime t1 (zoneIdToCache t0 ⟨c, dirty⟩ d v).2 d).1 =
          none ∧
        cacheLookup
          (zoneIdFromCache cachetime t1
            (zoneIdToCache t0 ⟨c, dirty⟩ d v).2 d).2.zone_id_cache d =
          none) := by
  have hset : cacheLookup (dictSet c d ⟨v, t0⟩) d = some ⟨v, t0⟩ :=
    cacheLookup_dictSet_self c d ⟨v, t0⟩
  constructor
  · intro hfresh
    rw [zoneIdToCache, zoneIdFromCache]
    simp only [hset]
    rw [if_neg (by omega)]
  · intro hexp
    rw [zoneIdToCache, zoneIdFromCache]
    simp only [hset]
    rw [if_pos hexp]
    exact ⟨rfl, cacheLookup_dictErase_self _ d (keysNodup_dictSet c d _ hnd)⟩

theorem cache_roundtrip_witness :
    zoneIdFromCache 100 50 (zoneIdToCache 0 ⟨[], false⟩ "example.com"
        (some "z1")).2 "example.com" =
      (some "z1", (zoneIdToCache 0 ⟨[], false⟩ "example.com" (some "z1")).2) ∧
    (zoneIdFromCache 100 200 (zoneIdToCache 0 ⟨[], false⟩ "example.com"
        (some "z1")).2 "example.com").1 = none :=
  ⟨(cache_roundtrip 100 0 50 [] false "example.com" (some "z1")
      (by decide)).1 (by decide),
   ((cache_roundtrip 100 0 200 [] false "example.com" (some "z1")
      (by decide)).2 (by decide)).1⟩

/-- **C7.**  When the persisted cache file's account differs from the
current credential identity, `_load_cache` discards the file entirely: the
state stays the fresh `__init__` state with an empty cache, and every
subsequent cache lookup (also for a domain present in the mismatched file)
reports unknown. -/
theorem loadCache_mismatch_discards (cachetime now : Int) (cf : CacheFile)
    (current_email : Option String) (h : cf.account ≠ current_email) :
    loadCache current_email (some cf) initState = initState ∧
    ∀ d, zoneIdFromCache cachetime now
        (loadCache current_email (some cf) initState) d =
      (none, loadCache current_email (some cf) initState) := by
  have hload : loadCache current_email (some cf) initState = initState := by
    rw [loadCache, if_pos h]
  refine ⟨hload, fun d => ?_⟩
  rw [hload, zoneIdFromCache]
  rfl

theorem loadCache_mismatch_discards_witness :
    loadCache (some "bob")
        (some ⟨some "alice", [("example.com", ⟨some "z1", 0⟩)]⟩) initState =
      initState ∧
    (zoneIdFromCache 100 0
        (loadCache (some "bob")
          (some ⟨some "alice", [("example.com", ⟨some "z1", 0⟩)]⟩) initState)
        "example.com").1 = none :=
  ⟨(loadCache_mismatch_discards 100 0
      ⟨some "alice", [("example.com", ⟨some "z1", 0⟩)]⟩ (some "bob")
      (by decide)).1,
   by
    rw [(loadCache_mismatch_discards 100 0
      ⟨some "alice", [("example.com", ⟨some "z1", 0⟩)]⟩ (some "bob")
      (by decide)).2 "example.com"]⟩

/-- **C10.**  TTL eviction on read (`_zone_id_from_cache`) deletes the
entry but does not set `_cache_changed`; so when the flag was clear and the
only mutation is that eviction, `_save_cache` does not rewrite the file:
the persisted file (which may still hold the expired entry) is unchanged. -/
theorem evict_does_not_dirty_or_save (cachetime now : Int) (st : HookState)
    (d : String) (e : CacheEntry) (current_email : Option String)
    (file : Option CacheFile)
    (hmem : cacheLookup st.zone_id_cache d = some e)
    (hexp : now - e.created ≥ cachetime)
    (hnd : keysNodup st.zone_id_cache)
    (hclean : st.cache_changed = false) :
    (zoneIdFromCache cachetime now st d).1 = none ∧
    cacheLookup (zoneIdFromCache cachetime now st d).2.zone_id_cache d =
      none ∧
    (zoneIdFromCache cachetime now st d).2.cache_changed = false ∧
    saveCache current_email file (zoneIdFromCache cachetime now st d).2 =
      file := by
  rw [zoneIdFromCache]
  simp only [hmem]
  rw [if_pos hexp]
  refine ⟨rfl, cacheLookup_dictErase_self _ d hnd, hclean, ?_⟩
  rw [saveCache]
  simp [hclean]

theorem evict_does_not_dirty_or_save_witness :
    (zoneIdFromCache 100 100 ⟨[("example.com", ⟨some "z1", 0⟩)], false⟩
        "example.com").1 = none ∧
    cacheLookup (zoneIdFromCache 100 100
        ⟨[("example.com", ⟨some "z1", 0⟩)], false⟩
        "example.com").2.zone_id_cache "example.com" = none ∧
    (zoneIdFromCache 100 100 ⟨[("example.com", ⟨some "z1", 0⟩)], false⟩
        "example.com").2.cache_changed = false ∧
    saveCache (some "alice")
        (some ⟨some "alice", [("example.com", ⟨some "z1", 0⟩)]⟩)
        (zoneIdFromCache 100 100 ⟨[("example.com", ⟨some "z1", 0⟩)], false⟩
          "example.com").2 =
      some ⟨some "alice", [("example.com", ⟨some "z1", 0⟩)]⟩ :=
  evict_does_not_dirty_or_save 100 100
    ⟨[("example.com", ⟨some "z1", 0⟩)], false⟩ "example.com" ⟨some "z1", 0⟩
    (some "alice") (some ⟨some "alice", [("example.com", ⟨some "z1", 0⟩)]⟩)
    (by decide) (by decide) (by decide) rfl

/-- One outbound call of the hook: a Cloudflare zones query
(`self._cf.zones.get`), a TXT record query / creation / deletion
(`zones.dns_records.get/post/delete`), or a resolver TXT query inside
`_dns_propagated`. -/
inductive CallEvent where
  | zonesGet (name : String)
  | txtGet (zone_id : Option String) (name : String) (content : String)
  | txtPost (zone_id : String) (name : String) (content : String) (ttl : Int)
  | txtDelete (zone_id : String) (record_id : String)
  | dnsQuery (name : String)
deriving DecidableEq, Repr

/-- The `for dom in _iter_domain(domain)` loop of `_get_zone_id`, over the
remaining candidates.  `zonesGet name` is the provider's answer to
`zones.get(params={"name": name})`, as the list of the zones' ids.
Returns the Python return value, the state afterwards, and the trace of
provider zone queries issued. -/
def getZoneIdLoop (cachetime now : Int) (zonesGet : String → List String) :
    List String → HookState → Option String × HookState × List CallEvent
  | [], st => (none, st, [])
  | dom :: rest, st =>
    let r1 := zoneIdFromCache cachetime now st dom
    if optStrTruthy r1.1 then (r1.1, r1.2, [])
    else
      match zonesGet dom with
      | [] =>
        let st2 := (zoneIdToCache now r1.2 dom none).2
        let r3 := getZoneIdLoop cachetime now zonesGet rest st2
        (r3.1, r3.2.1, CallEvent.zonesGet dom :: r3.2.2)
      | z :: _ =>
        let r2 := zoneIdToCache now r1.2 dom (some z)
        (r2.1, r2.2, [CallEvent.zonesGet dom])

/-- `_get_zone_id(domain)`.  Falls off the loop with `None` (after a
logged error) when every candidate is exhausted. -/
def getZoneId (cachetime now : Int) (zonesGet : String → List String)
    (st : HookState) (domain : String) :
    Option String × HookState × List CallEvent :=
  getZoneIdLoop cachetime now zonesGet (iterDomain domain) st

theorem zoneIdFromCache_miss (cachetime now : Int) (st : HookState)
    (domain : String) (h : cacheLookup st.zone_id_cache domain = none) :
    zoneIdFromCache cachetime now st domain = (none, st) := by
  simp [zoneIdFromCache, h]

theorem zoneIdFromCache_fresh (cachetime now : Int) (st : HookState)
    (domain : String) (e : CacheEntry)
    (h : cacheLookup st.zone_id_cache domain = some e)
    (hfresh : ¬ now - e.created ≥ cachetime) :
    zoneIdFromCache cachetime now st domain = (e.id, st) := by
  simp [zoneIdFromCache, h, hfresh]

theorem zoneIdFromCache_expired (cachetime now : Int) (st : HookState)
    (domain : String) (e : CacheEntry)
    (h : cacheLookup st.zone_id_cache domain = some e)
    (hexp : now - e.created ≥ cachetime) :
    zoneIdFromCache cachetime now st domain =
      (none,
        { st with zone_id_cache := dictErase st.zone_id_cache domain }) := by
  simp [zoneIdFromCache, h, hexp]

theorem getZoneIdLoop_cons_hit (cachetime now : Int)
    (zonesGet : String → List String) (dom : String) (rest : List String)
    (st : HookState)
    (ht : optStrTruthy (zoneIdFromCache cachetime now st dom).1 = true) :
    getZoneIdLoop cachetime now zonesGet (dom :: rest) st =
      ((zoneIdFromCache cachetime now st dom).1,
        (zoneIdFromCache cachetime now st dom).2, []) := by
  simp [getZoneIdLoop, ht]

theorem getZoneIdLoop_cons_absent (cachetime now : Int)
    (zonesGet : String → List String) (dom : String) (rest : List String)
    (st : HookState)
    (ht : optStrTruthy (zoneIdFromCache cachetime now st dom).1 = false)
    (hz : zonesGet dom = []) :
    getZoneIdLoop cachetime now zonesGet (dom :: rest) st =
      ((getZoneIdLoop cachetime now zonesGet rest
          (zoneIdToCache now (zoneIdFromCache cachetime now st dom).2 dom
            none).2).1,
        (getZoneIdLoop cachetime now zonesGet rest
          (zoneIdToCache now (zoneIdFromCache cachetime now st dom).2 dom
            none).2).2.1,
        CallEvent.zonesGet dom ::
          (getZoneIdLoop cachetime now zonesGet rest
            (zoneIdToCache now (zoneIdFromCache cachetime now st dom).2 dom
              none).2).2.2) := by
  simp [getZoneIdLoop, ht, hz]

theorem getZoneIdLoop_cons_found (cachetime now : Int)
    (zonesGet : String → List String) (dom : String) (rest : List String)
    (st : HookState) (z0 : String) (zs : List String)
    (ht : optStrTruthy (zoneIdFromCache cachetime now st dom).1 = false)
    (hz : zonesGet dom = z0 :: zs) :
    getZoneIdLoop cachetime now zonesGet (dom :: rest) st =
      (some z0,
        { zone_id_cache :=
            dictSet (zoneIdFromCache cachetime now st dom).2.zone_id_cache
              dom ⟨some z0, now⟩,
          cache_changed := true },
        [CallEvent.zonesGet dom]) := by
  simp [getZoneIdLoop, ht, hz, zoneIdToCache]

theorem zoneIdFromCache_some (cachetime now : Int) (st : HookState)
    (domain z : String)
    (h : (zoneIdFromCache cachetime now st domain).1 = some z) :
    ∃ e, cacheLookup
        (zoneIdFromCache cachetime now st domain).2.zone_id_cache domain =
      some e ∧ e.id = some z := by
  cases hc : cacheLookup st.zone_id_cache domain with
  | none =>
    rw [zoneIdFromCache_miss cachetime now st domain hc] at h
    exact absurd h (by simp)
  | some e =>
    by_cases hexp : now - e.created ≥ cachetime
    · rw [zoneIdFromCache_expired cachetime now st domain e hc hexp] at h
      exact absurd h (by simp)
    · rw [zoneIdFromCache_fresh cachetime now st domain e hc hexp] at h ⊢
      exact ⟨e, hc, h⟩

theorem getZoneIdLoop_result_in_cache (cachetime now : Int)
    (zonesGet : String → List String) (l : List String) (st : HookState)
    (z : String)
    (h : (getZoneIdLoop cachetime now zonesGet l st).1 = some z) :
    ∃ c ∈ l, ∃ e,
      cacheLookup
          (getZoneIdLoop cachetime now zonesGet l st).2.1.zone_id_cache c =
        some e ∧ e.id = some z := by
  induction l generalizing st with
  | nil => exact absurd h (by simp [getZoneIdLoop])
  | cons dom rest ih =>
    cases ht : optStrTruthy (zoneIdFromCache cachetime now st dom).1 with
    | true =>
      rw [getZoneIdLoop_cons_hit cachetime now zonesGet dom rest st ht]
        at h ⊢
      obtain ⟨e, he, hid⟩ := zoneIdFromCache_some cachetime now st dom z h
      exact ⟨dom, List.mem_cons_self dom rest, e, he, hid⟩
    | false =>
      cases hz : zonesGet dom with
      | nil =>
        rw [getZoneIdLoop_cons_absent cachetime now zonesGet dom rest st
          ht hz] at h ⊢
        obtain ⟨c, hcmem, e, he, hid⟩ := ih _ h
        exact ⟨c, List.mem_cons_of_mem dom hcmem, e, he, hid⟩
      | cons z0 zs =>
        rw [getZoneIdLoop_cons_found cachetime now zonesGet dom rest st z0
          zs ht hz] at h ⊢
        have hz0 : z0 = z := by simpa using h
        subst hz0
        exact ⟨dom, List.mem_cons_self dom rest, ⟨some z0, now⟩,
          cacheLookup_dictSet_self _ dom _, rfl⟩

/-- **C9.**  Whenever `_get_zone_id` returns a zone id, the cache
afterwards holds, for some candidate of the domain's walk, an entry whose
stored id is exactly the returned id: the resolver never returns an id it
did not read from or write into the cache. -/
theorem getZoneId_result_in_cache (cachetime now : Int)
    (zonesGet : String → List String) (st : HookState) (domain z : String)
    (h : (getZoneId cachetime now zonesGet st domain).1 = some z) :
    ∃ c ∈ iterDomain domain, ∃ e,
      cacheLookup
          (getZoneId cachetime now zonesGet st domain).2.1.zone_id_cache c =
        some e ∧ e.id = some z :=
  getZoneIdLoop_result_in_cache cachetime now zonesGet (iterDomain domain)
    st z h

/-- A provider oracle knowing one zone `z1` named `a.b`. -/
def zonesGetOnlyAB : String → List String :=
  fun name => if name = "a.b" then ["z1"] else []

theorem getZoneId_result_in_cache_witness :
    ∃ c ∈ iterDomain "a.b", ∃ e,
      cacheLookup
          (getZoneId 1000 10 zonesGetOnlyAB initState
            "a.b").2.1.zone_id_cache c =
        some e ∧ e.id = some "z1" :=
  getZoneId_result_in_cache 1000 10 zonesGetOnlyAB initState "a.b" "z1"
    (by decide)

/-- **C2, behaviour at a failing input.**  The cache holds an unexpired
confirmed-absent entry for `"b"` (`id = none`, stored negative lookup), yet
resolving `"a.b"` still issues the provider zone query for `"b"`:
`_zone_id_from_cache` returns `None` for a stored negative entry exactly as
for a miss, so `_get_zone_id` cannot distinguish them and re-queries the
provider instead of advancing on the cached answer. -/
theorem cached_absent_still_queries_provider :
    cacheLookup (⟨[("b", ⟨none, 0⟩)], false⟩ : HookState).zone_id_cache "b" =
      some ⟨none, 0⟩ ∧
    ¬ ((10 : Int) - 0 ≥ 1000) ∧
    (getZoneId 1000 10 zonesGetOnlyAB ⟨[("b", ⟨none, 0⟩)], false⟩
        "a.b").2.2 =
      [CallEvent.zonesGet "b", CallEvent.zonesGet "a.b"] := by
  refine ⟨rfl, by decide, ?_⟩
  decide

/-- A TXT record at the provider, with the zone it lives in. -/
structure DnsRecord where
  id : String
  zone : String
  rtype : String
  name : String
  content : String
  ttl : Int
deriving DecidableEq, Repr

/-- The filter the provider applies for
`dns_records.get(zone_id, params={"type": "TXT", "name": name, "content": token})`. -/
def txtMatches (zid name content : String) (r : DnsRecord) : Bool :=
  r.zone == zid && r.rtype == "TXT" && r.name == name && r.content == content

/-- The provider's answer to `zones.dns_records.get`.  A request whose
zone id is `None` cannot be routed and raises `CloudFlareAPIError`
(`Except.error`). -/
def dnsRecordsGet (recs : List DnsRecord) (zone_id : Option String)
    (name content : String) : Except Unit (List DnsRecord) :=
  match zone_id with
  | none => Except.error ()
  | some zid => Except.ok (recs.filter (txtMatches zid name content))

/-- `_get_txt_record_id(zone_id, name, token)`: one provider lookup; the
id of the first matching record, `none` when there is none.  The method
has no try/except, so a raising lookup propagates (`Except.error`). -/
def getTxtRecordId (recs : List DnsRecord) (zone_id : Option String)
    (name token : String) :
    Except Unit (Option String) × List CallEvent :=
  (match dnsRecordsGet recs zone_id name token with
    | Except.error e => Except.error e
    | Except.ok records =>
      match records with
      | [] => Except.ok none
      | r :: _ => Except.ok (some r.id),
   [CallEvent.txtGet zone_id name token])

/-- `_dns_propagated(name, token)` applied to one resolver answer: `false`
on any `DNSException`, else whether some rdata's decoded strings contain
the token. -/
def dnsPropagated (answer : Except Unit (List (List String)))
    (token : String) : Bool :=
  match answer with
  | Except.error _ => false
  | Except.ok response => response.any (fun rdata => rdata.contains token)

/-- The deploy wait loop `while not self._dns_propagated(...)`, unfolded
with fuel.  `dnsAt i` is the resolver's answer to the i-th TXT query;
the result is the index of the first propagated answer, or `none` when
the loop is still running after `fuel` queries. -/
def propagationWaitFrom (dnsAt : Nat → Except Unit (List (List String)))
    (token : String) (i : Nat) : Nat → Option Nat
  | 0 => none
  | fuel + 1 =>
    if dnsPropagated (dnsAt i) token then some i
    else propagationWaitFrom dnsAt token (i + 1) fuel

/-- How one hook action ends: a normal return, an uncaught exception, or
(for the fuel-bounded wait loop) still waiting. -/
inductive RunOutcome (α : Type) where
  | ok (a : α)
  | exn
  | hung
deriving DecidableEq, Repr

/-- `_deploy_challenge(domain, token_filename, token_value)`.  `postOk`
says whether the record creation succeeds at the provider (`False` models
a raised, caught `CloudFlareAPIError`), `freshId` the id the provider
assigns to the created record.  Returns the outcome together with the
final hook state and provider record store, and the trace of outbound
calls. -/
def deployChallenge (cachetime now : Int) (zonesGet : String → List String)
    (recs : List DnsRecord) (postOk : Bool) (freshId : String)
    (dnsAt : Nat → Except Unit (List (List String))) (fuel : Nat)
    (st : HookState) (domain token_value : String) :
    RunOutcome (HookState × List DnsRecord) × List CallEvent :=
  let rz := getZoneId cachetime now zonesGet st domain
  let st1 := rz.2.1
  let record_name := "_acme-challenge." ++ domain
  let rr := getTxtRecordId recs rz.1 record_name token_value
  let tr := rz.2.2 ++ rr.2
  match rr.1 with
  | Except.error _ => (RunOutcome.exn, tr)
  | Except.ok record_id =>
    if optStrTruthy record_id then (RunOutcome.ok (st1, recs), tr)
    else
      match rz.1 with
      | none => (RunOutcome.exn, tr)
      | some zid =>
        let trp := tr ++ [CallEvent.txtPost zid record_name token_value 120]
        if postOk then
          let recs2 :=
            recs ++ [⟨freshId, zid, "TXT", record_name, token_value, 120⟩]
          match propagationWaitFrom dnsAt token_value 0 fuel with
          | none =>
            (RunOutcome.hung,
              trp ++ (List.range fuel).map
                (fun _ => CallEvent.dnsQuery record_name))
          | some i =>
            (RunOutcome.ok (st1, recs2),
              trp ++ (List.range (i + 1)).map
                (fun _ => CallEvent.dnsQuery record_name))
        else (RunOutcome.ok (st1, recs), trp)

/-- `_clean_challenge(domain, token_filename, token_value)`.  `deleteOk`
says whether the provider deletion succeeds (`False` models a raised,
caught `CloudFlareAPIError`). -/
def cleanChallenge (cachetime now : Int) (zonesGet : String → List String)
    (recs : List DnsRecord) (deleteOk : Bool) (st : HookState)
    (domain token_value : String) :
    RunOutcome (HookState × List DnsRecord) × List CallEvent :=
  let rz := getZoneId cachetime now zonesGet st domain
  let st1 := rz.2.1
  let record_name := "_acme-challenge." ++ domain
  let rr := getTxtRecordId recs rz.1 record_name token_value
  let tr := rz.2.2 ++ rr.2
  match rr.1 with
  | Except.error _ => (RunOutcome.exn, tr)
  | Except.ok record_id =>
    if optStrTruthy record_id then
      match rz.1, record_id with
      | some zid, some rid =>
        let trd := tr ++ [CallEvent.txtDelete zid rid]
        if deleteOk then
          (RunOutcome.ok (st1, recs.filter (fun r => !(r.id == rid))), trd)
        else (RunOutcome.ok (st1, recs), trd)
      | _, _ => (RunOutcome.exn, tr)
    else (RunOutcome.ok (st1, recs), tr)

/-- Number of record-creation calls in a trace. -/
def postCount (tr : List CallEvent) : Nat :=
  tr.countP (fun e => match e with | CallEvent.txtPost _ _ _ _ => true | _ => false)

/-- Number of record-deletion calls in a trace. -/
def deleteCount (tr : List CallEvent) : Nat :=
  tr.countP (fun e => match e with | CallEvent.txtDelete _ _ => true | _ => false)

/-- Number of resolver TXT queries (the Propagation Gate) in a trace. -/
def dnsQueryCount (tr : List CallEvent) : Nat :=
  tr.countP (fun e => match e with | CallEvent.dnsQuery _ => true | _ => false)

theorem getZoneIdLoop_trace_only_zonesGet (cachetime now : Int)
    (zonesGet : String → List String) (l : List String) (st : HookState) :
    ∀ e ∈ (getZoneIdLoop cachetime now zonesGet l st).2.2,
      ∃ n, e = CallEvent.zonesGet n := by
  induction l generalizing st with
  | nil => intro e he; exact absurd he (by simp [getZoneIdLoop])
  | cons dom rest ih =>
    intro e he
    cases ht : optStrTruthy (zoneIdFromCache cachetime now st dom).1 with
    | true =>
      rw [getZoneIdLoop_cons_hit cachetime now zonesGet dom rest st ht] at he
      exact absurd he (by simp)
    | false =>
      cases hz : zonesGet dom with
      | nil =>
        rw [getZoneIdLoop_cons_absent cachetime now zonesGet dom rest st
          ht hz] at he
        rcases List.mem_cons.mp he with h1 | h1
        · exact ⟨dom, h1⟩
        · exact ih _ e h1
      | cons z0 zs =>
        rw [getZoneIdLoop_cons_found cachetime now zonesGet dom rest st z0
          zs ht hz] at he
        rcases List.mem_cons.mp he with h1 | h1
        · exact ⟨dom, h1⟩
        · exact absurd h1 (by simp)

theorem propagationWaitFrom_some (dnsAt : Nat → Except Unit (List (List String)))
    (token : String) (i j : Nat) (fuel : Nat)
    (h : propagationWaitFrom dnsAt token i fuel = some j) :
    dnsPropagated (dnsAt j) token = true := by
  induction fuel generalizing i with
  | zero => exact absurd h (by simp [propagationWaitFrom])
  | succ fuel ih =>
    rw [propagationWaitFrom] at h
    by_cases hp : dnsPropagated (dnsAt i) token = true
    · rw [if_pos hp] at h
      cases h
      exact hp
    · rw [if_neg hp] at h
      exact ih (i + 1) h

theorem zonesGet_trace_counts (tr : List CallEvent)
    (h : ∀ e ∈ tr, ∃ n, e = CallEvent.zonesGet n) :
    postCount tr = 0 ∧ deleteCount tr = 0 ∧ dnsQueryCount tr = 0 := by
  refine ⟨?_, ?_, ?_⟩
  · rw [postCount, List.countP_eq_zero]
    intro e he
    obtain ⟨n, rfl⟩ := h e he
    simp
  · rw [deleteCount, List.countP_eq_zero]
    intro e he
    obtain ⟨n, rfl⟩ := h e he
    simp
  · rw [dnsQueryCount, List.countP_eq_zero]
    intro e he
    obtain ⟨n, rfl⟩ := h e he
    simp

theorem countP_replicate_of_pos {α : Type} (p : α → Bool) (n : Nat) (a : α)
    (h : p a = true) : List.countP p (List.replicate n a) = n := by
  induction n with
  | zero => rfl
  | succ n ih => simp [List.replicate_succ, List.countP_cons, h, ih]

theorem countP_replicate_of_neg {α : Type} (p : α → Bool) (n : Nat) (a : α)
    (h : p a = false) : List.countP p (List.replicate n a) = 0 := by
  induction n with
  | zero => rfl
  | succ n ih => simp [List.replicate_succ, List.countP_cons, h, ih]

/-- A provider oracle knowing no zone at all. -/
def zonesGetNone : String → List String := fun _ => []

/-- A resolver that always fails with a `DNSException`. -/
def dnsNoAnswer : Nat → Except Unit (List (List String)) :=
  fun _ => Except.error ()

/-- A resolver whose every answer is a TXT record set containing `"tok"`. -/
def dnsTokOk : Nat → Except Unit (List (List String)) :=
  fun _ => Except.ok [["tok"]]

/-- The challenge TXT record for `a.b` with token `tok`, living in zone
`z1` with record id `r1`. -/
def existingRecord : DnsRecord :=
  ⟨"r1", "z1", "TXT", "_acme-challenge.a.b", "tok", 120⟩

/-- **C3, behaviour at a failing input.**  With a provider that has no
zone for any candidate of `a.b`, `_get_zone_id` returns `None`; the
deploy and clean actions do ​not abort there: each still issues the TXT
record lookup, passing the `None` zone id to the provider (which cannot
route such a request), so the action dies with an uncaught exception
instead of aborting before any record operation. -/
theorem no_zone_still_attempts_record_lookup :
    (getZoneId 1000 0 zonesGetNone initState "a.b").1 = none ∧
    (deployChallenge 1000 0 zonesGetNone [] true "r1" dnsNoAnswer 1
        initState "a.b" "tok").1 = RunOutcome.exn ∧
    CallEvent.txtGet none "_acme-challenge.a.b" "tok" ∈
      (deployChallenge 1000 0 zonesGetNone [] true "r1" dnsNoAnswer 1
        initState "a.b" "tok").2 ∧
    (cleanChallenge 1000 0 zonesGetNone [] true initState "a.b" "tok").1 =
      RunOutcome.exn ∧
    CallEvent.txtGet none "_acme-challenge.a.b" "tok" ∈
      (cleanChallenge 1000 0 zonesGetNone [] true initState "a.b"
        "tok").2 := by
  decide

/-- **C4, counterexample.**  A deploy invocation whose challenge record
already exists returns (normally) without a single resolver TXT query:
the Propagation Gate is not invoked on this path. -/
theorem deploy_existing_record_skips_propagation_gate :
    (deployChallenge 1000 0 zonesGetOnlyAB [existingRecord] true "r2"
        dnsNoAnswer 5 initState "a.b" "tok").1 =
      RunOutcome.ok
        (⟨[("b", ⟨none, 0⟩), ("a.b", ⟨some "z1", 0⟩)], true⟩,
          [existingRecord]) ∧
    dnsQueryCount (deployChallenge 1000 0 zonesGetOnlyAB [existingRecord]
        true "r2" dnsNoAnswer 5 initState "a.b" "tok").2 = 0 := by
  decide

/-- **C4 (amended).**  Only the successful-creation path of
`_deploy_challenge` invokes the Propagation Gate; on that path the action
returns only after a resolver TXT query for the record name has returned
a record set containing the token (the loop exits at the first propagated
answer, after `j + 1` queries).  When the record already exists, or the
creation call fails, deploy returns without any resolver query. -/
theorem deploy_creation_path_awaits_propagation
    (cachetime now : Int) (zonesGet : String → List String)
    (recs : List DnsRecord) (freshId : String)
    (dnsAt : Nat → Except Unit (List (List String))) (fuel : Nat)
    (st st1 : HookState) (domain token_value zid : String)
    (trz : List CallEvent) (j : Nat)
    (hz : getZoneId cachetime now zonesGet st domain = (some zid, st1, trz))
    (hrec : recs.filter
        (txtMatches zid ("_acme-challenge." ++ domain) token_value) = [])
    (hw : propagationWaitFrom dnsAt token_value 0 fuel = some j) :
    (deployChallenge cachetime now zonesGet recs true freshId dnsAt fuel st
        domain token_value).1 =
      RunOutcome.ok (st1, recs ++
        [⟨freshId, zid, "TXT", "_acme-challenge." ++ domain, token_value,
          120⟩]) ∧
    dnsPropagated (dnsAt j) token_value = true ∧
    dnsQueryCount (deployChallenge cachetime now zonesGet recs true freshId
        dnsAt fuel st domain token_value).2 = j + 1 := by
  have htr := getZoneIdLoop_trace_only_zonesGet cachetime now zonesGet
    (iterDomain domain) st
  rw [getZoneId] at hz
  rw [hz] at htr
  have hq : dnsQueryCount trz = 0 := (zonesGet_trace_counts trz htr).2.2
  refine ⟨?_, propagationWaitFrom_some dnsAt token_value 0 j fuel hw, ?_⟩
  · simp [deployChallenge, getZoneId, hz, getTxtRecordId, dnsRecordsGet,
      hrec, hw, optStrTruthy]
  · simp only [deployChallenge, getZoneId, hz]
    simp only [getTxtRecordId, dnsRecordsGet, hrec]
    simp only [optStrTruthy, hw]
    rw [dnsQueryCount] at hq
    simp [dnsQueryCount, List.countP_append, List.countP_map,
      Function.comp, hq, countP_replicate_of_pos]

theorem deploy_creation_path_awaits_propagation_witness :
    (deployChallenge 1000 0 zonesGetOnlyAB [] true "r2" dnsTokOk 1
        initState "a.b" "tok").1 =
      RunOutcome.ok
        (⟨[("b", ⟨none, 0⟩), ("a.b", ⟨some "z1", 0⟩)], true⟩,
          [] ++ [⟨"r2", "z1", "TXT", "_acme-challenge." ++ "a.b", "tok",
            120⟩]) ∧
    dnsPropagated (dnsTokOk 0) "tok" = true ∧
    dnsQueryCount (deployChallenge 1000 0 zonesGetOnlyAB [] true "r2"
        dnsTokOk 1 initState "a.b" "tok").2 = 0 + 1 :=
  deploy_creation_path_awaits_propagation 1000 0 zonesGetOnlyAB [] "r2"
    dnsTokOk 1 initState
    ⟨[("b", ⟨none, 0⟩), ("a.b", ⟨some "z1", 0⟩)], true⟩ "a.b" "tok" "z1"
    [CallEvent.zonesGet "b", CallEvent.zonesGet "a.b"] 0 (by decide) rfl
    (by decide)

/-- **C5.**  The deploy path's record reconciliation is idempotent: when
no TXT record matching (name, token) exists, the first deploy issues
exactly one creation call; run again from the resulting provider state
(and with the zone resolving to the same id), the second deploy's lookup
finds the first run's record and issues no creation call — the record
store is unchanged. -/
theorem deploy_idempotent (cachetime now now2 : Int)
    (zonesGet : String → List String) (recs : List DnsRecord)
    (freshId : String) (dnsAt dnsAt2 : Nat → Except Unit (List (List String)))
    (fuel fuel2 : Nat) (st st1 st2 : HookState)
    (domain token_value zid : String) (trz1 trz2 : List CallEvent) (j : Nat)
    (hz1 : getZoneId cachetime now zonesGet st domain =
      (some zid, st1, trz1))
    (hrec : recs.filter
        (txtMatches zid ("_acme-challenge." ++ domain) token_value) = [])
    (hfresh : freshId ≠ "")
    (hw : propagationWaitFrom dnsAt token_value 0 fuel = some j)
    (hz2 : getZoneId cachetime now2 zonesGet st1 domain =
      (some zid, st2, trz2)) :
    (deployChallenge cachetime now zonesGet recs true freshId dnsAt fuel st
        domain token_value).1 =
      RunOutcome.ok (st1, recs ++
        [⟨freshId, zid, "TXT", "_acme-challenge." ++ domain, token_value,
          120⟩]) ∧
    postCount (deployChallenge cachetime now zonesGet recs true freshId
        dnsAt fuel st domain token_value).2 = 1 ∧
    (deployChallenge cachetime now2 zonesGet
        (recs ++ [⟨freshId, zid, "TXT", "_acme-challenge." ++ domain,
          token_value, 120⟩]) true freshId dnsAt2 fuel2 st1 domain
        token_value).1 =
      RunOutcome.ok (st2, recs ++
        [⟨freshId, zid, "TXT", "_acme-challenge." ++ domain, token_value,
          120⟩]) ∧
    postCount (deployChallenge cachetime now2 zonesGet
        (recs ++ [⟨freshId, zid, "TXT", "_acme-challenge." ++ domain,
          token_value, 120⟩]) true freshId dnsAt2 fuel2 st1 domain
        token_value).2 = 0 := by
  have htr1 := getZoneIdLoop_trace_only_zonesGet cachetime now zonesGet
    (iterDomain domain) st
  have htr2 := getZoneIdLoop_trace_only_zonesGet cachetime now2 zonesGet
    (iterDomain domain) st1
  rw [getZoneId] at hz1 hz2
  rw [hz1] at htr1
  rw [hz2] at htr2
  have hp1 : postCount trz1 = 0 := (zonesGet_trace_counts trz1 htr1).1
  have hp2 : postCount trz2 = 0 := (zonesGet_trace_counts trz2 htr2).1
  rw [postCount] at hp1 hp2
  have hmatch : txtMatches zid ("_acme-challenge." ++ domain) token_value
      ⟨freshId, zid, "TXT", "_acme-challenge." ++ domain, token_value,
        120⟩ = true := by
    simp [txtMatches]
  refine ⟨?_, ?_, ?_, ?_⟩
  · simp [deployChallenge, getZoneId, hz1, getTxtRecordId, dnsRecordsGet,
      hrec, hw, optStrTruthy]
  · simp only [deployChallenge, getZoneId, hz1]
    simp only [getTxtRecordId, dnsRecordsGet, hrec]
    simp only [optStrTruthy, hw]
    simp [postCount, List.countP_append, List.countP_map, Function.comp,
      hp1, countP_replicate_of_neg]
  · simp [deployChallenge, getZoneId, hz2, getTxtRecordId, dnsRecordsGet,
      List.filter_append, hrec, hmatch, optStrTruthy, hfresh]
  · have hsecond : deployChallenge cachetime now2 zonesGet
        (recs ++ [⟨freshId, zid, "TXT", "_acme-challenge." ++ domain,
          token_value, 120⟩]) true freshId dnsAt2 fuel2 st1 domain
        token_value =
        (RunOutcome.ok (st2, recs ++
          [⟨freshId, zid, "TXT", "_acme-challenge." ++ domain, token_value,
            120⟩]),
          trz2 ++ [CallEvent.txtGet (some zid)
            ("_acme-challenge." ++ domain) token_value]) := by
      simp [deployChallenge, getZoneId, hz2, getTxtRecordId, dnsRecordsGet,
        List.filter_append, hrec, hmatch, optStrTruthy, hfresh]
    rw [hsecond]
    simp [postCount, List.countP_append, hp2]

theorem deploy_idempotent_witness :
    (deployChallenge 1000 0 zonesGetOnlyAB [] true "r2" dnsTokOk 1
        initState "a.b" "tok").1 =
      RunOutcome.ok
        (⟨[("b", ⟨none, 0⟩), ("a.b", ⟨some "z1", 0⟩)], true⟩,
          [] ++ [⟨"r2", "z1", "TXT", "_acme-challenge." ++ "a.b", "tok",
            120⟩]) ∧
    postCount (deployChallenge 1000 0 zonesGetOnlyAB [] true "r2" dnsTokOk
        1 initState "a.b" "tok").2 = 1 ∧
    (deployChallenge 1000 0 zonesGetOnlyAB
        ([] ++ [⟨"r2", "z1", "TXT", "_acme-challenge." ++ "a.b", "tok",
          120⟩]) true "r2" dnsTokOk 1
        ⟨[("b", ⟨none, 0⟩), ("a.b", ⟨some "z1", 0⟩)], true⟩ "a.b"
        "tok").1 =
      RunOutcome.ok
        (⟨[("b", ⟨none, 0⟩), ("a.b", ⟨some "z1", 0⟩)], true⟩,
          [] ++ [⟨"r2", "z1", "TXT", "_acme-challenge." ++ "a.b", "tok",
            120⟩]) ∧
    postCount (deployChallenge 1000 0 zonesGetOnlyAB
        ([] ++ [⟨"r2", "z1", "TXT", "_acme-challenge." ++ "a.b", "tok",
          120⟩]) true "r2" dnsTokOk 1
        ⟨[("b", ⟨none, 0⟩), ("a.b", ⟨some "z1", 0⟩)], true⟩ "a.b"
        "tok").2 = 0 :=
  deploy_idempotent 1000 0 0 zonesGetOnlyAB [] "r2" dnsTokOk dnsTokOk 1 1
    initState ⟨[("b", ⟨none, 0⟩), ("a.b", ⟨some "z1", 0⟩)], true⟩
    ⟨[("b", ⟨none, 0⟩), ("a.b", ⟨some "z1", 0⟩)], true⟩ "a.b" "tok" "z1"
    [CallEvent.zonesGet "b", CallEvent.zonesGet "a.b"]
    [CallEvent.zonesGet "b"] 0 (by decide) rfl (by decide) (by decide)
    (by decide)

/-- **C6.**  The clean path on an already-absent record is a no-op: when
the provider lookup for (name, TXT, token) in the resolved zone returns no
record, `_clean_challenge` returns normally after that single lookup, the
provider record store is unchanged, and no delete call is issued. -/
theorem clean_absent_record_noop (cachetime now : Int)
    (zonesGet : String → List String) (recs : List DnsRecord)
    (deleteOk : Bool) (st st1 : HookState)
    (domain token_value zid : String) (trz : List CallEvent)
    (hz : getZoneId cachetime now zonesGet st domain = (some zid, st1, trz))
    (hrec : recs.filter
        (txtMatches zid ("_acme-challenge." ++ domain) token_value) = []) :
    cleanChallenge cachetime now zonesGet recs deleteOk st domain
        token_value =
      (RunOutcome.ok (st1, recs),
        trz ++ [CallEvent.txtGet (some zid) ("_acme-challenge." ++ domain)
          token_value]) ∧
    deleteCount (cleanChallenge cachetime now zonesGet recs deleteOk st
        domain token_value).2 = 0 := by
  have htr := getZoneIdLoop_trace_only_zonesGet cachetime now zonesGet
    (iterDomain domain) st
  rw [getZoneId] at hz
  rw [hz] at htr
  have hd : deleteCount trz = 0 := (zonesGet_trace_counts trz htr).2.1
  rw [deleteCount] at hd
  have h1 : cleanChallenge cachetime now zonesGet recs deleteOk st domain
      token_value =
      (RunOutcome.ok (st1, recs),
        trz ++ [CallEvent.txtGet (some zid) ("_acme-challenge." ++ domain)
          token_value]) := by
    simp [cleanChallenge, getZoneId, hz, getTxtRecordId, dnsRecordsGet,
      hrec, optStrTruthy]
  refine ⟨h1, ?_⟩
  rw [h1]
  simp [deleteCount, List.countP_append, hd]

theorem clean_absent_record_noop_witness :
    cleanChallenge 1000 0 zonesGetOnlyAB [] true initState "a.b" "tok" =
      (RunOutcome.ok
        (⟨[("b", ⟨none, 0⟩), ("a.b", ⟨some "z1", 0⟩)], true⟩, []),
        [CallEvent.zonesGet "b", CallEvent.zonesGet "a.b"] ++
          [CallEvent.txtGet (some "z1") ("_acme-challenge." ++ "a.b")
            "tok"]) ∧
    deleteCount (cleanChallenge 1000 0 zonesGetOnlyAB [] true initState
        "a.b" "tok").2 = 0 :=
  clean_absent_record_noop 1000 0 zonesGetOnlyAB [] true initState
    ⟨[("b", ⟨none, 0⟩), ("a.b", ⟨some "z1", 0⟩)], true⟩ "a.b" "tok" "z1"
    [CallEvent.zonesGet "b", CallEvent.zonesGet "a.b"] (by decide) rfl

end DehydratedCF
